import Mathlib

/-!
Verification of the acquisition engine of `nion/swift/model/HardwareSource.py`.

The development shallowly embeds the `AcquisitionTask` state machine
(`execute`, `stop`, `abort`, `resume`, `__mark_as_finished`,
`__execute_acquire_data_elements`) and the channel-publishing step
(`HardwareSource.__data_elements_changed`).  2-D numpy arrays are modelled
as `List (List Nat)` (rows of pixel values); Python `None` becomes `none`;
a raised exception or failed `assert` becomes an error result; backend
hook invocations and fired events are recorded explicitly as lists.
-/

namespace NionAcq

/-- A sub-area `((top, left), (height, width))` as used by the merge code. -/
abbrev SubArea := (Nat × Nat) × (Nat × Nat)

/-- One data element of a (partial) delivery: the `data` array, the optional
`sub_area`, the optional `state` string, and the optional
`properties.frame_index`.  Mirrors the dict fields the engine reads. -/
structure DataElement where
  data : List (List Nat)
  sub_area : Option SubArea
  state : Option String
  frame_index : Option Nat
  deriving Repr, DecidableEq

/-- numpy `data.shape` for a 2-D array: (number of rows, row length). -/
def shape (g : List (List Nat)) : Nat × Nat := (g.length, (g.headD []).length)

/-- Python `data_element.get("sub_area", ((0, 0), data.shape))`. -/
def subAreaOrShape (d : DataElement) : SubArea :=
  d.sub_area.getD ((0, 0), shape d.data)

/-- Top offset of an element's covered region (`existing_top` / `new_top`). -/
def topOf (d : DataElement) : Nat := (subAreaOrShape d).1.1

/-- Left offset of an element's covered region (`existing_left`). -/
def leftOf (d : DataElement) : Nat := (subAreaOrShape d).1.2

/-- Height of an element's covered region. -/
def heightOf (d : DataElement) : Nat := (subAreaOrShape d).2.1

/-- Width of an element's covered region (`existing_width` / `new_width`);
for a buffered element whose region spans the full width this equals the
channel's full width. -/
def widthOf (d : DataElement) : Nat := (subAreaOrShape d).2.2

/-- Bottom edge of an element's covered region (`existing_bottom` /
`new_bottom`). -/
def bottomOf (d : DataElement) : Nat := topOf d + heightOf d

/-- Right edge of an element's covered region (`existing_right`). -/
def rightOf (d : DataElement) : Nat := leftOf d + widthOf d

/-- Models `new[t0:t1, l:r] = old[t0:t1, l:r]`: copy the rows `[t0, t1)` restricted
to columns `[l, r)` from `old` into `new`, leaving everything else as in
`new`.  Row lengths of `new` are preserved. -/
def copyRegion (nw old : List (List Nat)) (t0 t1 l r : Nat) : List (List Nat) :=
  (List.range nw.length).map fun i =>
    let nrow := nw.getD i []
    if t0 ≤ i ∧ i < t1 then
      let orow := old.getD i []
      (List.range nrow.length).map fun j =>
        if l ≤ j ∧ j < r then orow.getD j 0 else nrow.getD j 0
    else nrow

/-- Merge one channel's new delivery `nw` into the buffered element `old`
(the loop body of `__execute_acquire_data_elements`).  The two `assert`
statements of the source become `none` results. -/
def mergeChannel (old nw : DataElement) : Option DataElement :=
  if topOf nw > bottomOf old then none  -- assert new_top <= existing_bottom
  else if topOf nw > 0 then
    if widthOf nw ≠ widthOf old then none  -- assert new_width == existing_width
    else some { nw with
      data := copyRegion nw.data old.data (topOf old) (topOf nw) (leftOf old) (rightOf old)
      sub_area := some ((topOf old, leftOf old),
                        (bottomOf nw - topOf old, widthOf old)) }
  else some nw

/-- The `zip(partial_data_elements, data_elements)` merge loop: the first
argument is the new delivery, the second the buffered elements; unpaired
new elements pass through unchanged, unpaired buffered elements are
dropped (the result is the new list with its first elements merged). -/
def mergeZip : List DataElement → List DataElement → Option (List DataElement)
  | [], _ => some []
  | ps, [] => some ps
  | p :: ps, d :: ds =>
    match mergeChannel d p, mergeZip ps ds with
    | some p2, some rest => some (p2 :: rest)
    | _, _ => none

/-- The merge step of `__execute_acquire_data_elements`: seed from the new
delivery when nothing is buffered (`if not data_elements`), otherwise merge
channel by channel.  An empty new delivery leaves the buffered list as the
result, exactly as the source's loop does. -/
def mergeDataElements (buffered : Option (List DataElement))
    (delivery : List DataElement) : Option (List DataElement) :=
  match buffered with
  | none => some delivery
  | some [] => some delivery
  | some ds => if delivery.isEmpty then some ds else mergeZip delivery ds

/-- One element is complete when it has no `sub_area` or its state
(defaulting to "complete") equals "complete". -/
def elementComplete (d : DataElement) : Bool :=
  d.sub_area.isNone || (d.state.getD "complete") == "complete"

/-- The `complete` flag computed over all data elements. -/
def allComplete (ds : List DataElement) : Bool := ds.all elementComplete

/-- Python `data_element.setdefault("properties", dict()).setdefault("frame_index", frame_index)`. -/
def setFrameIndexDefault (fi : Nat) (d : DataElement) : DataElement :=
  { d with frame_index := some (d.frame_index.getD fi) }

/-- The mutable state of an `AcquisitionTask`: the five boolean flags
(`__started`, `__finished`, `__is_suspended`, `__aborted`, `__is_stopping`),
the `__is_continuous` mode, `__frame_index`, and the accumulated
`__data_elements` buffer (`none` models Python `None`). -/
structure TaskState where
  started : Bool
  finished : Bool
  suspended : Bool
  aborted : Bool
  stopping : Bool
  continuous : Bool
  frame_index : Nat
  data_elements : Option (List DataElement)
  deriving Repr, DecidableEq

/-- Backend hook invocations, recorded in call order. -/
inductive Hook where
  | startHook | abortHook | suspendHook | resumeHook | markHook | stopHook | acquireHook
  deriving Repr, DecidableEq

/-- Events fired by a task: `data_elements_changed_event(elements, …,
is_complete, is_stopping)` and `finished_event`. -/
inductive Notif where
  | dataChanged (elements : List DataElement) (is_complete : Bool) (is_stopping : Bool)
  | finishedNotif
  deriving Repr, DecidableEq

/-- Backend behaviour for one `execute` call: `start_acquisition` either
raises (`none`) or returns a Bool; `acquire_data_elements` either raises
(`none`) or returns a delivery. -/
structure Backend where
  startResult : Option Bool
  acquireResult : Option (List DataElement)
  deriving Repr, DecidableEq

/-- Models `__mark_as_finished`: set `__finished`, fire
`data_elements_changed_event(list(), …, False, is_stopping)`, then
`finished_event`. -/
def markAsFinished (s : TaskState) : TaskState × List Notif :=
  ({ s with finished := true },
   [Notif.dataChanged [] false s.stopping, Notif.finishedNotif])

/-- Outcome of one `execute` call: the new task state, the backend hooks
invoked, the events fired, and whether the call raised to its caller. -/
structure ExecResult where
  state : TaskState
  hooks : List Hook
  events : List Notif
  raised : Bool
  deriving Repr, DecidableEq

/-- Models `__execute_acquire_data_elements` after the rate-limit sleep: acquire a
delivery (`none` result models a raising backend), default the frame
indexes, merge against the buffer (`none` models a failed merge assert),
compute `complete`, fire the data-changed event, and either advance
`__frame_index` (complete) or store the merged elements (incomplete).
Returns `none` when the step raises. -/
def execAcquire (s : TaskState) (b : Backend) :
    Option (TaskState × List Notif × Bool) :=
  match b.acquireResult with
  | none => none
  | some delivery0 =>
    let delivery := delivery0.map (setFrameIndexDefault s.frame_index)
    match mergeDataElements s.data_elements delivery with
    | none => none
    | some ds =>
      let complete := allComplete ds
      let ev := Notif.dataChanged ds complete s.stopping
      let s2 := if complete
        then { s with frame_index := s.frame_index + 1 }
        else { s with data_elements := some ds }
      some (s2, [ev], complete)

/-- The `if not self.__finished` body of `execute`: either the abort
sequence or one acquisition step with the completion-triggered stop.  The
default hook implementations `_abort_acquisition` and `_stop_acquisition`
clear `__data_elements` before calling into the hardware source. -/
def executeCore (s1 : TaskState) (b : Backend) (hooks1 : List Hook) : ExecResult :=
  if s1.finished then ⟨s1, hooks1, [], false⟩
  else if s1.aborted then
    let s2 := { s1 with data_elements := none }
    let fin := markAsFinished s2
    ⟨fin.1, hooks1 ++ [Hook.abortHook, Hook.markHook, Hook.stopHook], fin.2, false⟩
  else
    match execAcquire s1 b with
    | none =>
      let fin := markAsFinished s1
      ⟨fin.1, hooks1 ++ [Hook.acquireHook], fin.2, true⟩
    | some (s2, evs, complete) =>
      if complete ∧ (s2.stopping = true ∨ s2.continuous = false) then
        let s3 := { s2 with data_elements := none }
        let fin := markAsFinished s3
        ⟨fin.1, hooks1 ++ [Hook.acquireHook, Hook.stopHook], evs ++ fin.2, false⟩
      else ⟨s2, hooks1 ++ [Hook.acquireHook], evs, false⟩

/-- The body of `execute` after the start phase: the resume-if-suspended
step (which clears the suspended flag after calling `resume()`, whose
default `_resume_acquisition` clears the buffer and invokes the backend
resume hook), then the `if not self.__finished` body. -/
def executeBody (s : TaskState) (b : Backend) (hooks0 : List Hook) : ExecResult :=
  if s.suspended then
    executeCore { s with suspended := false, data_elements := none } b
      (hooks0 ++ [Hook.resumeHook])
  else executeCore s b hooks0

/-- Models `AcquisitionTask.execute`.  On first call runs `__start`
(`_start_acquisition` clears the buffer then calls the backend start hook;
a `False` return calls `self.abort()`, a raise marks the task finished and
propagates before `__started` is ever set). -/
def execute (s : TaskState) (b : Backend) : ExecResult :=
  if s.started then executeBody s b []
  else
    let s1 := { s with data_elements := none }
    match b.startResult with
    | none =>
      let fin := markAsFinished s1
      ⟨fin.1, [Hook.startHook], fin.2, true⟩
    | some ok =>
      let s2 := if ok then s1 else { s1 with aborted := true }
      executeBody { s2 with started := true } b [Hook.startHook]

/-- Models `AcquisitionTask.resume`: calls `_resume_acquisition` (which clears the
buffer and invokes the backend resume hook); it does not touch
`__is_suspended`. -/
def taskResume (s : TaskState) : TaskState × List Hook :=
  ({ s with data_elements := none }, [Hook.resumeHook])

/-- Models `AcquisitionTask.stop`: set `__is_stopping` and call `_mark_acquisition`
(the backend mark-for-stop hook). -/
def taskStop (s : TaskState) : TaskState × List Hook :=
  ({ s with stopping := true }, [Hook.markHook])

/-- Models `AcquisitionTask.abort`: set `__aborted`. -/
def taskAbort (s : TaskState) : TaskState :=
  { s with aborted := true }

/-- Whether an `execute` call fired a data-changed event reporting a
complete frame. -/
def stepCompleted (r : ExecResult) : Bool :=
  r.events.any fun ev =>
    match ev with
    | Notif.dataChanged _ c _ => c
    | _ => false

/-- Run one `execute` per delivery with a successful start hook, stopping
with `none` as soon as a call raises; also counts the steps whose delivery
was reported complete. -/
def runCount (s : TaskState) : List (List DataElement) → Option (TaskState × Nat)
  | [] => some (s, 0)
  | d :: rest =>
    let r := execute s ⟨some true, some d⟩
    if r.raised then none
    else
      match runCount r.state rest with
      | none => none
      | some (s2, n) => some (s2, (if stepCompleted r then 1 else 0) + n)

/-- One published channel record (`ChannelData` named tuple); the
`data_and_calibration` payload is modelled by the raw data array. -/
structure ChannelData where
  index : Nat
  state : String
  sub_area : Option SubArea
  data : List (List Nat)
  deriving Repr, DecidableEq

/-- The `enumerate(data_elements)` loop of
`HardwareSource.__data_elements_changed`, threading the channel index:
the published state is the element's state (default "complete"), demoted
to "marked" when it is not "complete" and `is_stopping` holds. -/
def channelsDataFrom (stopping : Bool) : Nat → List DataElement → List ChannelData
  | _, [] => []
  | i, d :: rest =>
    let cs := d.state.getD "complete"
    let cs2 := if cs ≠ "complete" ∧ stopping = true then "marked" else cs
    ⟨i, cs2, d.sub_area, d.data⟩ :: channelsDataFrom stopping (i + 1) rest

/-- Models `HardwareSource.__data_elements_changed`: the list of `ChannelData`
records passed to `channels_data_updated_event`. -/
def dataElementsChanged (des : List DataElement) (stopping : Bool) : List ChannelData :=
  channelsDataFrom stopping 0 des

/-- A 2-D array whose row `r` is `cols` copies of `f r`. -/
def gridOfRows (f : Nat → Nat) (rows cols : Nat) : List (List Nat) :=
  (List.range rows).map fun r => List.replicate cols (f r)

/-- A freshly created task (`AcquisitionTask.__init__`): all flags clear,
frame index 0, nothing buffered. -/
def freshTask (continuous : Bool) : TaskState :=
  ⟨false, false, false, false, false, continuous, 0, none⟩

/-- First delivery of the §8.3 scenario: rows [0,10) at width 20 (value 1
on the covered rows), state "partial". -/
def c1Seed : DataElement :=
  ⟨gridOfRows (fun r => if r < 10 then 1 else 0) 16 20,
   some ((0, 0), (10, 20)), some "partial", none⟩

/-- Second delivery of the §8.3 scenario: rows [10,16) at width 20 (value 2
on the covered rows), state "complete". -/
def c1Next : DataElement :=
  ⟨gridOfRows (fun r => if 10 ≤ r then 2 else 0) 16 20,
   some ((10, 0), (6, 20)), some "complete", none⟩

/-- The execution step that seeds the frame buffer with `c1Seed` on a fresh
continuous task. -/
def c1Run1 : ExecResult := execute (freshTask true) ⟨some true, some [c1Seed]⟩

/-- The subsequent execution step that merges `c1Next` into the buffer. -/
def c1Run2 : ExecResult := execute c1Run1.state ⟨some true, some [c1Next]⟩

/-- The merged element the second step should deliver: region [0,16) at
width 20, rows below 10 holding the seeded value, rows from 10 the new
value. -/
def c1Merged : DataElement :=
  ⟨gridOfRows (fun r => if r < 10 then 1 else 2) 16 20,
   some ((0, 0), (16, 20)), some "complete", some 0⟩

/-- C1: merging a seeded partial covering rows [0,10) at width 20 with a
subsequent partial covering rows [10,16) at width 20 yields a single merged
sub-region [0,16) at width 20 reported complete, with every row at or below
the new partial's top taken from the new data (last-write-wins on any
overlap) and every row above it copied from the previously buffered data. -/
theorem merge_contiguity_c1 :
    c1Run2.events = [Notif.dataChanged [c1Merged] true false] ∧
    c1Merged.sub_area = some ((0, 0), (16, 20)) ∧
    (∀ r < 16, ∀ c < 20,
      (c1Merged.data.getD r []).getD c 0 =
        if r < 10 then (c1Seed.data.getD r []).getD c 0
        else (c1Next.data.getD r []).getD c 0) := by decide

/-- C2 (code evaluated at the failing input): after the execution step whose
merged delivery is complete, the accumulated `__data_elements` buffer is not
cleared — it still holds the elements stored by the previous incomplete
delivery, so the next delivery would be merged against stale data instead of
seeding a fresh frame.  The source assigns `__data_elements` only in the
incomplete branch and never resets it on completion. -/
theorem buffer_not_reset_after_complete_c2 :
    stepCompleted c1Run2 = true ∧
    c1Run2.state.frame_index = 1 ∧
    c1Run2.state.data_elements = some [setFrameIndexDefault 0 c1Seed] ∧
    c1Run2.state.data_elements ≠ none := by decide

/-- A subsequent delivery with top offset 5 but width 10 < 20, used to
exhibit the merge contract violation. -/
def c4Narrow : DataElement :=
  ⟨gridOfRows (fun _ => 3) 16 10, some ((5, 0), (5, 10)), some "partial", none⟩

/-- A buffered element covering rows [0,10) at the full width 20. -/
def c4Buffered : DataElement :=
  ⟨gridOfRows (fun r => if r < 10 then 1 else 0) 16 20,
   some ((0, 0), (10, 20)), some "partial", none⟩

/-- C4: during a merge, a subsequent partial whose top offset exceeds the
buffered region's bottom edge, or whose top offset is positive while its
width is smaller than the buffered region's width (the channel's full
width whenever the buffer spans it), fails the merge assertions and is
rejected (`none`), never silently corrected. -/
theorem merge_violation_rejected_c4 (old nw : DataElement)
    (h : topOf nw > bottomOf old ∨ (topOf nw > 0 ∧ widthOf nw < widthOf old)) :
    mergeChannel old nw = none := by
  unfold mergeChannel
  by_cases hb : topOf nw > bottomOf old
  · simp [hb]
  · rcases h with h | ⟨h1, h2⟩
    · exact absurd h hb
    · simp [hb, h1, Nat.ne_of_lt h2]

/-- Witness for C4 at a concrete violating delivery. -/
theorem merge_violation_rejected_c4_witness :
    (topOf c4Narrow > bottomOf c4Buffered ∨
      (topOf c4Narrow > 0 ∧ widthOf c4Narrow < widthOf c4Buffered)) ∧
    mergeChannel c4Buffered c4Narrow = none :=
  ⟨by decide, merge_violation_rejected_c4 c4Buffered c4Narrow (by decide)⟩

/-- C6: on any started, unfinished task with `abort()` already requested,
the very next `execute()` runs the backend abort, mark-for-stop and stop
hooks in that order (preceded only by the resume hook when the task was
suspended), transitions to finished, and fires exactly the final
data-changed notification with an empty element list followed by the
finished event — no other data-changed notification. -/
theorem abort_immediacy_c6 (s : TaskState) (b : Backend)
    (h1 : s.started = true) (h2 : s.finished = false)
    (h3 : s.aborted = true) :
    (execute s b).state.finished = true ∧
    (execute s b).hooks = (if s.suspended then [Hook.resumeHook] else [])
      ++ [Hook.abortHook, Hook.markHook, Hook.stopHook] ∧
    (execute s b).events = [Notif.dataChanged [] false s.stopping, Notif.finishedNotif] ∧
    (execute s b).raised = false := by
  by_cases h4 : s.suspended = true <;>
    simp [execute, executeBody, executeCore, markAsFinished, h1, h2, h3, h4]

/-- Witness for C6 at a concrete aborted task. -/
theorem abort_immediacy_c6_witness :
    (⟨true, false, false, true, false, true, 0, none⟩ : TaskState).started = true ∧
    (execute ⟨true, false, false, true, false, true, 0, none⟩
        ⟨some true, some []⟩).state.finished = true ∧
    (execute ⟨true, false, false, true, false, true, 0, none⟩
        ⟨some true, some []⟩).hooks = [Hook.abortHook, Hook.markHook, Hook.stopHook] :=
  ⟨rfl,
   (abort_immediacy_c6 ⟨true, false, false, true, false, true, 0, none⟩
      ⟨some true, some []⟩ rfl rfl rfl).1,
   by
     have h := (abort_immediacy_c6 ⟨true, false, false, true, false, true, 0, none⟩
        ⟨some true, some []⟩ rfl rfl rfl).2.1
     simpa using h⟩

/-- C3 counterexample: a backend start hook that reports failure by
returning `False` does not propagate any error to the caller of
`execute()` — the call returns normally (the task is aborted and finished
instead), refuting the claim that the triggering error always propagates. -/
theorem start_failure_c3_counterexample :
    (execute (freshTask true) ⟨some false, some []⟩).raised = false ∧
    (execute (freshTask true) ⟨some false, some []⟩).state.finished = true ∧
    (execute (freshTask true) ⟨some false, some []⟩).events
      = [Notif.dataChanged [] false false, Notif.finishedNotif] := by decide

/-- C3 amended: on the first `execute()` of a task, a start hook that
raises makes the task transition directly to finished (firing the finished
notification with no data, after the empty data-changed notification) and
the error propagates to the caller; a start hook that instead returns
`False` aborts the task, which then — in the same call — runs the abort,
mark-for-stop and stop hooks, finishes firing the same final notifications,
and propagates no error. -/
theorem start_failure_behavior_c3 (s : TaskState) (b : Backend)
    (hns : s.started = false) (hnf : s.finished = false) (hnsu : s.suspended = false) :
    (b.startResult = none →
      (execute s b).state.finished = true ∧
      (execute s b).state.started = false ∧
      (execute s b).raised = true ∧
      (execute s b).events = [Notif.dataChanged [] false s.stopping, Notif.finishedNotif] ∧
      (execute s b).hooks = [Hook.startHook]) ∧
    (b.startResult = some false →
      (execute s b).state.finished = true ∧
      (execute s b).raised = false ∧
      (execute s b).hooks = [Hook.startHook, Hook.abortHook, Hook.markHook, Hook.stopHook] ∧
      (execute s b).events = [Notif.dataChanged [] false s.stopping, Notif.finishedNotif]) := by
  constructor
  · intro h
    simp [execute, executeBody, executeCore, markAsFinished, hns, hnf, hnsu, h]
  · intro h
    simp [execute, executeBody, executeCore, markAsFinished, hns, hnf, hnsu, h]

/-- Witness for C3 (amended) at a fresh task whose start hook raises. -/
theorem start_failure_behavior_c3_witness :
    (freshTask true).started = false ∧
    (execute (freshTask true) ⟨none, some []⟩).raised = true ∧
    (execute (freshTask true) ⟨some false, some []⟩).raised = false :=
  ⟨rfl,
   ((start_failure_behavior_c3 (freshTask true) ⟨none, some []⟩ rfl rfl rfl).1 rfl).2.2.1,
   ((start_failure_behavior_c3 (freshTask true) ⟨some false, some []⟩ rfl rfl rfl).2 rfl).2.1⟩

/-- C7: a stopped (stopping) task does not finish on an `execute()` step
whose merged delivery is incomplete; on a step producing a complete frame a
stopping or single-pass task runs the stop hook and finishes; and a
non-aborted continuous task that is not stopping stays unfinished even
after a complete frame. -/
theorem stop_at_boundary_c7 (s : TaskState) (b : Backend)
    (delivery merged : List DataElement)
    (h1 : s.started = true) (h2 : s.finished = false)
    (h3 : s.aborted = false) (h4 : s.suspended = false)
    (hacq : b.acquireResult = some delivery)
    (hm : mergeDataElements s.data_elements
            (delivery.map (setFrameIndexDefault s.frame_index)) = some merged) :
    (allComplete merged = false → (execute s b).state.finished = false) ∧
    (allComplete merged = true → (s.stopping = true ∨ s.continuous = false) →
      (execute s b).state.finished = true ∧ Hook.stopHook ∈ (execute s b).hooks) ∧
    (allComplete merged = true → s.stopping = false → s.continuous = true →
      (execute s b).state.finished = false) := by
  refine ⟨?_, ?_, ?_⟩
  · intro hc
    simp [execute, executeBody, executeCore, execAcquire, markAsFinished, h1, h2, h3, h4, hacq, hm, hc]
  · intro hc hsc
    rcases hsc with h5 | h5 <;>
      simp [execute, executeBody, executeCore, execAcquire, markAsFinished, h1, h2, h3, h4, hacq, hm, hc, h5]
  · intro hc h5 h6
    simp [execute, executeBody, executeCore, execAcquire, markAsFinished, h1, h2, h3, h4, hacq, hm, hc, h5, h6]

/-- Witness for C7: a stopping continuous task fed an incomplete delivery
stays unfinished; fed a complete one it finishes. -/
theorem stop_at_boundary_c7_witness :
    (⟨true, false, false, false, true, true, 0, none⟩ : TaskState).stopping = true ∧
    allComplete [setFrameIndexDefault 0 c1Seed] = false ∧
    (execute ⟨true, false, false, false, true, true, 0, none⟩
        ⟨some true, some [c1Seed]⟩).state.finished = false :=
  ⟨rfl, by decide,
   (stop_at_boundary_c7 ⟨true, false, false, false, true, true, 0, none⟩
      ⟨some true, some [c1Seed]⟩ [c1Seed] [setFrameIndexDefault 0 c1Seed]
      rfl rfl rfl rfl rfl (by decide)).1 (by decide)⟩

/-- A started, suspended continuous task used to refute C8. -/
def c8Susp : TaskState := ⟨true, false, true, false, false, true, 0, none⟩

/-- C8 counterexample: `resume()` on a suspended task invokes the backend
resume hook but leaves the suspended flag set, refuting the claim that
`resume()` clears it. -/
theorem resume_c8_counterexample :
    c8Susp.suspended = true ∧
    (taskResume c8Susp).2 = [Hook.resumeHook] ∧
    (taskResume c8Susp).1.suspended = true := by decide

/-- C9 counterexample: `finished` is not terminal for the state machine's
flags — calling `stop()` on a finished single-pass task still sets the
stopping flag (a state change) and invokes the backend mark-for-stop hook,
refuting the claim that no call to `execute()`, `stop()` or `abort()`
changes a finished task's state machine. -/
theorem finished_terminal_c9_counterexample :
    (⟨true, true, false, false, false, false, 1, none⟩ : TaskState).finished = true ∧
    (taskStop ⟨true, true, false, false, false, false, 1, none⟩).1
      ≠ ⟨true, true, false, false, false, false, 1, none⟩ ∧
    (taskStop ⟨true, true, false, false, false, false, 1, none⟩).2 = [Hook.markHook] := by
  decide

/-- C9 amended: once `is_finished` is true, a subsequent `execute()` on a
started, non-suspended task changes no state, invokes no hooks and fires no
notifications (so the finished notification stays the last one `execute`
ever fires); `stop()` and `abort()` still set their stopping/aborted flags
(and `stop()` invokes the backend mark hook) but fire no notifications and
never clear `finished`. -/
theorem finished_terminal_c9 (s : TaskState) (b : Backend)
    (hf : s.finished = true) (hs : s.started = true) (hns : s.suspended = false) :
    execute s b = ⟨s, [], [], false⟩ ∧
    (taskStop s).1 = { s with stopping := true } ∧
    (taskStop s).1.finished = true ∧
    taskAbort s = { s with aborted := true } ∧
    (taskAbort s).finished = true := by
  refine ⟨?_, rfl, ?_, rfl, ?_⟩
  · simp [execute, executeBody, executeCore, hf, hs, hns]
  · simp [taskStop, hf]
  · simp [taskAbort, hf]

/-- Witness for C9 (amended) at a concrete finished task. -/
theorem finished_terminal_c9_witness :
    (⟨true, true, false, false, false, false, 1, none⟩ : TaskState).finished = true ∧
    execute ⟨true, true, false, false, false, false, 1, none⟩ ⟨some true, some []⟩
      = ⟨⟨true, true, false, false, false, false, 1, none⟩, [], [], false⟩ :=
  ⟨rfl,
   (finished_terminal_c9 ⟨true, true, false, false, false, false, 1, none⟩
      ⟨some true, some []⟩ rfl rfl rfl).1⟩

/-- Characterization of a non-raising acquisition step: the fired event,
the completion flag and the successor state in terms of the merged
elements. -/
lemma execAcquire_some (s : TaskState) (b : Backend) (s2 : TaskState)
    (evs : List Notif) (c : Bool)
    (h : execAcquire s b = some (s2, evs, c)) :
    ∃ merged, evs = [Notif.dataChanged merged c s.stopping] ∧
      c = allComplete merged ∧
      s2 = (if c then { s with frame_index := s.frame_index + 1 }
            else { s with data_elements := some merged }) := by
  unfold execAcquire at h
  split at h
  · exact absurd h (by simp)
  · dsimp only at h
    split at h
    · exact absurd h (by simp)
    · next merged hm =>
      simp only [Option.some.injEq, Prod.mk.injEq] at h
      obtain ⟨hs2, hevs, hc⟩ := h
      subst hc
      exact ⟨merged, hevs.symm, rfl, by rw [← hs2]⟩

/-- The function `executeCore` always returns the given hook prefix followed by the
hooks it invoked itself, and never changes the suspended flag. -/
lemma executeCore_prefix_suspended (s : TaskState) (b : Backend) (h0 : List Hook) :
    (∃ rest, (executeCore s b h0).hooks = h0 ++ rest) ∧
    (executeCore s b h0).state.suspended = s.suspended := by
  unfold executeCore
  by_cases hf : s.finished = true
  · simp [hf]
  · by_cases ha : s.aborted = true
    · simp [hf, ha, markAsFinished]
    · cases hacq : execAcquire s b with
      | none => simp [hf, ha, markAsFinished]
      | some t =>
        obtain ⟨s2, evs, c⟩ := t
        obtain ⟨merged, hevs, hc, hs2⟩ := execAcquire_some s b s2 evs c hacq
        by_cases hcb : (c = true ∧ (s2.stopping = true ∨ s2.continuous = false))
        · refine ⟨⟨[Hook.acquireHook, Hook.stopHook], ?_⟩, ?_⟩ <;>
            simp [hf, ha, hcb, markAsFinished] <;>
            rcases hcb.1 ▸ hs2 with rfl <;> simp
        · refine ⟨⟨[Hook.acquireHook], ?_⟩, ?_⟩ <;>
            simp [hf, ha, hcb, markAsFinished] <;>
            (rw [hs2]; split <;> simp)

/-- C8 amended: `resume()` always invokes the backend resume hook but does
not itself clear the suspended flag; the flag is cleared by the next
`execute()` call, which invokes the resume hook first (before any other
backend hook) on a started suspended task and leaves the task no longer
suspended. -/
theorem resume_behavior_c8 (s : TaskState) (b : Backend)
    (hsusp : s.suspended = true) (hst : s.started = true) :
    (taskResume s).2 = [Hook.resumeHook] ∧
    (taskResume s).1.suspended = s.suspended ∧
    (execute s b).hooks.head? = some Hook.resumeHook ∧
    (execute s b).state.suspended = false := by
  have hex : execute s b
      = executeCore { s with suspended := false, data_elements := none } b [Hook.resumeHook] := by
    simp [execute, executeBody, hst, hsusp]
  obtain ⟨⟨rest, hr⟩, hsu⟩ :=
    executeCore_prefix_suspended { s with suspended := false, data_elements := none } b
      [Hook.resumeHook]
  refine ⟨rfl, rfl, ?_, ?_⟩
  · rw [hex, hr]; rfl
  · rw [hex, hsu]

/-- Witness for C8 (amended) at a concrete suspended task. -/
theorem resume_behavior_c8_witness :
    c8Susp.suspended = true ∧
    (taskResume c8Susp).1.suspended = c8Susp.suspended ∧
    (execute c8Susp ⟨some true, some []⟩).state.suspended = false :=
  ⟨rfl,
   (resume_behavior_c8 c8Susp ⟨some true, some []⟩ rfl rfl).2.1,
   (resume_behavior_c8 c8Susp ⟨some true, some []⟩ rfl rfl).2.2.2⟩

/-- Equation for a non-raising, non-finishing pass through the acquisition
branch of `executeCore`. -/
lemma executeCore_run (s : TaskState) (b : Backend) (h0 : List Hook)
    (s2 : TaskState) (evs : List Notif) (c : Bool)
    (hf : s.finished = false) (ha : s.aborted = false)
    (hacq : execAcquire s b = some (s2, evs, c))
    (hcond : ¬(c = true ∧ (s2.stopping = true ∨ s2.continuous = false))) :
    executeCore s b h0 = ⟨s2, h0 ++ [Hook.acquireHook], evs, false⟩ := by
  unfold executeCore
  rw [if_neg (by simp [hf]), if_neg (by simp [ha]), hacq]
  dsimp only
  rw [if_neg hcond]

/-- A continuous, non-stopping, non-aborted, unfinished task stays that way
across a non-raising `executeCore` pass, and its frame index advances by
one exactly when the pass reported a complete delivery. -/
lemma executeCore_continuous (s : TaskState) (b : Backend) (h0 : List Hook)
    (hc : s.continuous = true) (hst : s.stopping = false) (hab : s.aborted = false)
    (hf : s.finished = false)
    (hnr : (executeCore s b h0).raised = false) :
    (executeCore s b h0).state.continuous = true ∧
    (executeCore s b h0).state.stopping = false ∧
    (executeCore s b h0).state.aborted = false ∧
    (executeCore s b h0).state.finished = false ∧
    (executeCore s b h0).state.frame_index =
      s.frame_index + (if stepCompleted (executeCore s b h0) then 1 else 0) := by
  cases hacq : execAcquire s b with
  | none =>
    have hrn : executeCore s b h0
        = ⟨(markAsFinished s).1, h0 ++ [Hook.acquireHook], (markAsFinished s).2, true⟩ := by
      unfold executeCore
      rw [if_neg (by simp [hf]), if_neg (by simp [hab]), hacq]
    rw [hrn] at hnr
    simp at hnr
  | some t =>
    obtain ⟨s2, evs, c⟩ := t
    obtain ⟨merged, hevs, hcm, hs2⟩ := execAcquire_some s b s2 evs c hacq
    have hcond : ¬(c = true ∧ (s2.stopping = true ∨ s2.continuous = false)) := by
      rintro ⟨hc1, hc2⟩
      rw [hs2] at hc2
      rcases hc2 with h5 | h5 <;> revert h5 <;> split <;> simp [hst, hc]
    have hres := executeCore_run s b h0 s2 evs c hf hab hacq hcond
    rw [hres]
    have hsc : stepCompleted ⟨s2, h0 ++ [Hook.acquireHook], evs, false⟩ = c := by
      rw [hevs]; simp [stepCompleted]
    rw [hsc, hs2]
    cases c with
    | true => simp [hc, hst, hab, hf]
    | false => simp [hc, hst, hab, hf]

/-- Lift of `executeCore_continuous` through the resume-if-suspended step. -/
lemma executeBody_continuous (s : TaskState) (b : Backend) (h0 : List Hook)
    (hc : s.continuous = true) (hst : s.stopping = false) (hab : s.aborted = false)
    (hf : s.finished = false)
    (hnr : (executeBody s b h0).raised = false) :
    (executeBody s b h0).state.continuous = true ∧
    (executeBody s b h0).state.stopping = false ∧
    (executeBody s b h0).state.aborted = false ∧
    (executeBody s b h0).state.finished = false ∧
    (executeBody s b h0).state.frame_index =
      s.frame_index + (if stepCompleted (executeBody s b h0) then 1 else 0) := by
  unfold executeBody at *
  by_cases hsp : s.suspended = true
  · rw [if_pos hsp] at *
    exact executeCore_continuous _ b _ hc hst hab hf hnr
  · rw [if_neg hsp] at *
    exact executeCore_continuous s b h0 hc hst hab hf hnr

/-- One `execute` step of a running continuous task that is neither
stopping nor aborted: the task stays running and `frame_index` advances by
one exactly when the step fired a complete data-changed notification. -/
lemma execute_continuous_step (s : TaskState) (d : List DataElement)
    (hc : s.continuous = true) (hst : s.stopping = false) (hab : s.aborted = false)
    (hf : s.finished = false)
    (hnr : (execute s ⟨some true, some d⟩).raised = false) :
    (execute s ⟨some true, some d⟩).state.continuous = true ∧
    (execute s ⟨some true, some d⟩).state.stopping = false ∧
    (execute s ⟨some true, some d⟩).state.aborted = false ∧
    (execute s ⟨some true, some d⟩).state.finished = false ∧
    (execute s ⟨some true, some d⟩).state.frame_index =
      s.frame_index + (if stepCompleted (execute s ⟨some true, some d⟩) then 1 else 0) := by
  unfold execute at *
  by_cases hstart : s.started = true
  · rw [if_pos hstart] at *
    exact executeBody_continuous s _ [] hc hst hab hf hnr
  · rw [if_neg hstart] at *
    exact executeBody_continuous _ _ [Hook.startHook] hc hst hab hf hnr

/-- C5: over any trace of deliveries fed to a running continuous task that
is never stopped or aborted and on which every `execute` returns normally,
the final `frame_index` equals the initial one plus the number of steps
whose delivery was reported complete — it advances by exactly one per
completed frame and never otherwise, regardless of interleaved incomplete
partial deliveries. -/
theorem monotonic_frame_index_c5 (s : TaskState) (ds : List (List DataElement))
    (s2 : TaskState) (n : Nat)
    (hc : s.continuous = true) (hst : s.stopping = false) (hab : s.aborted = false)
    (hf : s.finished = false)
    (hrun : runCount s ds = some (s2, n)) :
    s2.frame_index = s.frame_index + n := by
  induction ds generalizing s s2 n with
  | nil =>
    simp only [runCount, Option.some.injEq, Prod.mk.injEq] at hrun
    obtain ⟨rfl, rfl⟩ := hrun
    simp
  | cons d rest ih =>
    simp only [runCount] at hrun
    by_cases hrb : (execute s ⟨some true, some d⟩).raised = true
    · rw [if_pos hrb] at hrun
      cases hrun
    · have hrb2 : (execute s ⟨some true, some d⟩).raised = false := by
        revert hrb; cases (execute s ⟨some true, some d⟩).raised <;> simp
      rw [if_neg hrb] at hrun
      cases hrc : runCount (execute s ⟨some true, some d⟩).state rest with
      | none => rw [hrc] at hrun; cases hrun
      | some p =>
        obtain ⟨s3, m⟩ := p
        rw [hrc] at hrun
        simp only [Option.some.injEq, Prod.mk.injEq] at hrun
        obtain ⟨rfl, rfl⟩ := hrun
        obtain ⟨hc2, hst2, hab2, hf2, hfi⟩ := execute_continuous_step s d hc hst hab hf hrb2
        have hrest := ih (execute s ⟨some true, some d⟩).state s3 m hc2 hst2 hab2 hf2 hrc
        cases hsc : stepCompleted (execute s ⟨some true, some d⟩) <;>
          simp only [hsc, if_true, if_false] at hfi ⊢ <;> omega

/-- The state after feeding the two §8.3 deliveries to a fresh continuous
task: one frame completed, stale buffer retained. -/
def c5Final : TaskState :=
  ⟨true, false, false, false, false, true, 1, some [setFrameIndexDefault 0 c1Seed]⟩

/-- Witness for C5 over a concrete two-step trace with one completed frame. -/
theorem monotonic_frame_index_c5_witness :
    (freshTask true).continuous = true ∧
    runCount (freshTask true) [[c1Seed], [c1Next]] = some (c5Final, 1) ∧
    c5Final.frame_index = (freshTask true).frame_index + 1 :=
  ⟨rfl, by decide,
   monotonic_frame_index_c5 (freshTask true) [[c1Seed], [c1Next]] c5Final 1
     rfl rfl rfl rfl (by decide)⟩

/-- Index-threading equation for the publisher loop. -/
lemma channelsDataFrom_getElem (stopping : Bool) (k : Nat) (des : List DataElement)
    (i : Nat) :
    (channelsDataFrom stopping k des)[i]? =
      des[i]?.map fun d =>
        ⟨k + i,
         if d.state.getD "complete" ≠ "complete" ∧ stopping = true then "marked"
         else d.state.getD "complete",
         d.sub_area, d.data⟩ := by
  induction des generalizing k i with
  | nil => simp [channelsDataFrom]
  | cons d rest ih =>
    cases i with
    | zero => simp [channelsDataFrom]
    | succ j =>
      have h1 : (channelsDataFrom stopping k (d :: rest))[j + 1]?
          = (channelsDataFrom stopping (k + 1) rest)[j]? := by
        rw [channelsDataFrom, List.getElem?_cons_succ]
      rw [h1, ih (k + 1) j, List.getElem?_cons_succ]
      simp only [show k + 1 + j = k + (j + 1) from by omega]

/-- C10: the publisher demotes a channel's state to "marked" exactly for
non-"complete" states while `is_stopping` holds; with `is_stopping` false
the backend-supplied state (defaulting to "complete") passes through
unchanged; the record keeps the channel's position as its index. -/
theorem channel_state_c10 (des : List DataElement) (stopping : Bool) (i : Nat)
    (d : DataElement) (hd : des[i]? = some d) :
    ((dataElementsChanged des stopping)[i]?.map ChannelData.index) = some i ∧
    (stopping = true → d.state.getD "complete" ≠ "complete" →
      ((dataElementsChanged des stopping)[i]?.map ChannelData.state) = some "marked") ∧
    (stopping = false →
      ((dataElementsChanged des stopping)[i]?.map ChannelData.state)
        = some (d.state.getD "complete")) := by
  unfold dataElementsChanged
  rw [channelsDataFrom_getElem, hd]
  refine ⟨by simp, ?_, ?_⟩
  · intro h1 h2
    simp [h1, h2]
  · intro h1
    simp [h1]

/-- Witness for C10: an incomplete channel published while stopping is
reported as "marked". -/
theorem channel_state_c10_witness :
    ([c1Seed])[0]? = some c1Seed ∧
    ((dataElementsChanged [c1Seed] true)[0]?.map ChannelData.state) = some "marked" :=
  ⟨rfl, (channel_state_c10 [c1Seed] true 0 c1Seed rfl).2.1 rfl (by decide)⟩

end NionAcq
